import Mathlib

/-!
Shallow embedding of the BrowserStack Local process lifecycle controller
(src/browserstack/local.py, class LocalSingleton) and proofs about it.

Modelling conventions:
- Python option/keyword values are modelled by the type PyVal (a string, a
  boolean, or the value None); the repository's spec restricts option values
  to strings and booleans.
- Python dicts holding options and keyword arguments are modelled as
  insertion-ordered association lists with the usual dict operations
  (update-in-place-or-append, lookup, delete).
- Command lists built for the subprocess module are lists of PyVal, since
  the Python code places raw values (not only strings) in them.
- json.loads is modelled by a fuel-indexed recursive-descent parser jsonParse
  producing values of the inductive type Json (numbers are modelled as
  integers; the daemon handshake pid is an integer).
- External effects are inputs: the binary resolver (LocalBinary.get_binary,
  a collaborator that is not part of the embedded file) is an Except value,
  the spawned child's decoded stdout/stderr are strings, and OS process
  liveness (psutil.pid_exists) is a boolean-valued function.
-/

/-- Values a Python option mapping can hold: a string, a boolean, or None. -/
inductive PyVal where
  | pstr (s : String)
  | pbool (b : Bool)
  | pnone
deriving DecidableEq, Repr

/-- Python str() applied to a PyVal. -/
def pyToString : PyVal → String
  | .pstr s => s
  | .pbool true => "True"
  | .pbool false => "False"
  | .pnone => "None"

/-- ASCII lower-casing of one character, as used by str.lower on the values
that matter here. -/
def lowerChar (c : Char) : Char :=
  if 65 ≤ c.toNat ∧ c.toNat ≤ 90 then Char.ofNat (c.toNat + 32) else c

/-- Python str.lower (ASCII fragment). -/
def pyLower (s : String) : String :=
  String.mk (s.data.map lowerChar)

/-- Python truthiness of a PyVal: nonempty strings and True are truthy. -/
def pyTruthy : PyVal → Bool
  | .pstr s => !s.isEmpty
  | .pbool b => b
  | .pnone => false

/-- Lift an optional string (a Python Optional argument) to a PyVal. -/
def pyOfOptStr : Option String → PyVal
  | some s => .pstr s
  | none => .pnone

/-- JSON values as produced by json.loads (numbers restricted to integers). -/
inductive Json where
  | str (s : String)
  | num (n : Int)
  | bool (b : Bool)
  | null
  | obj (members : List (String × Json))
  | arr (elems : List Json)

/-- Opening brace character. -/
def lbrace : Char := Char.ofNat 123

/-- Closing brace character. -/
def rbrace : Char := Char.ofNat 125

/-- Double-quote character. -/
def dquote : Char := Char.ofNat 34

/-- Skip JSON whitespace. -/
def skipWs : List Char → List Char
  | [] => []
  | c :: cs => if c = ' ' ∨ c = '\n' ∨ c = '\t' ∨ c = '\r' then skipWs cs else c :: cs

/-- Parse the body of a JSON string after the opening quote (no escape
sequences; the handshake strings contain none). -/
def parseStrBody : List Char → Option (List Char × List Char)
  | [] => none
  | c :: cs =>
    if c = dquote then some ([], cs)
    else
      match parseStrBody cs with
      | some (s, rest) => some (c :: s, rest)
      | none => none

/-- Consume a maximal run of decimal digits. -/
def parseDigits : List Char → List Char × List Char
  | [] => ([], [])
  | c :: cs =>
    if c.isDigit then
      let p := parseDigits cs
      (c :: p.1, p.2)
    else ([], c :: cs)

/-- Value of a digit run. -/
def digitsVal (ds : List Char) : Nat :=
  ds.foldl (fun acc d => acc * 10 + (d.toNat - 48)) 0

/-- Parse a JSON integer (optional minus sign followed by digits). -/
def parseNum : List Char → Option (Int × List Char)
  | '-' :: cs =>
    match parseDigits cs with
    | ([], _) => none
    | (ds, rest) => some (-(Int.ofNat (digitsVal ds)), rest)
  | cs =>
    match parseDigits cs with
    | ([], _) => none
    | (ds, rest) => some (Int.ofNat (digitsVal ds), rest)

/-- Fuel-indexed JSON value parser. Parsing the members of an object after a
comma re-enters the function on an input with the opening brace re-attached,
so one recursive function covers nested objects and arrays. -/
def parseVal : Nat → List Char → Option (Json × List Char)
  | 0, _ => none
  | Nat.succ fuel, input =>
    match skipWs input with
    | [] => none
    | c :: cs =>
      if c = dquote then
        match parseStrBody cs with
        | some (s, rest) => some (.str (String.mk s), rest)
        | none => none
      else if c = lbrace then
        match skipWs cs with
        | [] => none
        | c2 :: cs2 =>
          if c2 = rbrace then some (.obj [], cs2)
          else if c2 = dquote then
            match parseStrBody cs2 with
            | none => none
            | some (k, rest1) =>
              match skipWs rest1 with
              | ':' :: rest2 =>
                match parseVal fuel rest2 with
                | none => none
                | some (v, rest3) =>
                  match skipWs rest3 with
                  | [] => none
                  | c3 :: rest4 =>
                    if c3 = rbrace then some (.obj [(String.mk k, v)], rest4)
                    else if c3 = ',' then
                      match parseVal fuel (lbrace :: rest4) with
                      | some (.obj ms, rest5) => some (.obj ((String.mk k, v) :: ms), rest5)
                      | _ => none
                    else none
              | _ => none
          else none
      else if c = '[' then
        match skipWs cs with
        | []  => none
        | c2 :: cs2 =>
          if c2 = ']' then some (.arr [], cs2)
          else
            match parseVal fuel (c2 :: cs2) with
            | none => none
            | some (v, rest1) =>
              match skipWs rest1 with
              | [] => none
              | c3 :: rest2 =>
                if c3 = ']' then some (.arr [v], rest2)
                else if c3 = ',' then
                  match parseVal fuel ('[' :: rest2) with
                  | some (.arr vs, rest3) => some (.arr (v :: vs), rest3)
                  | _ => none
                else none
      else
        match skipWs input with
        | 't' :: 'r' :: 'u' :: 'e' :: rest => some (.bool true, rest)
        | 'f' :: 'a' :: 'l' :: 's' :: 'e' :: rest => some (.bool false, rest)
        | 'n' :: 'u' :: 'l' :: 'l' :: rest => some (.null, rest)
        | cs2 =>
          match parseNum cs2 with
          | some (n, rest) => some (.num n, rest)
          | none => none

/-- Model of json.loads: parse one JSON value and require only whitespace
after it; any failure corresponds to Python's ValueError. -/
def jsonParse (s : String) : Option Json :=
  match parseVal (s.length + 1) s.data with
  | some (j, rest) => if skipWs rest = [] then some j else none
  | none => none

/-- Last-binding lookup in a JSON object member list (Python dicts produced
by json.loads keep the last of duplicate keys). -/
def lookupLast : List (String × Json) → String → Option Json
  | [], _ => none
  | kv :: rest, k =>
    match lookupLast rest k with
    | some v => some v
    | none => if kv.1 = k then some kv.2 else none

/-- Python subscript data[k] on a decoded JSON value: KeyError on a missing
key and TypeError on a non-object are both uncaught by the start method's
except ValueError and surface as a generic Python exception, modelled as
the error case. -/
def jsonGet : Json → String → Except Unit Json
  | .obj ms, k =>
    match lookupLast ms k with
    | some v => .ok v
    | none => .error ()
  | _, _ => .error ()

/-- Python dict assignment d[k] = v: update in place if the key exists,
otherwise append, preserving insertion order. -/
def dictSet : List (String × PyVal) → String → PyVal → List (String × PyVal)
  | [], k, v => [(k, v)]
  | kv :: rest, k, v =>
    if kv.1 = k then (k, v) :: rest else kv :: dictSet rest k v

/-- Python dict lookup. -/
def dictGet : List (String × PyVal) → String → Option PyVal
  | [], _ => none
  | kv :: rest, k => if kv.1 = k then some kv.2 else dictGet rest k

/-- Python del d[k] (identity when the key is absent, matching the guarded
deletions in the source, which only delete keys just found present). -/
def dictDel : List (String × PyVal) → String → List (String × PyVal)
  | [], _ => []
  | kv :: rest, k => if kv.1 = k then rest else kv :: dictDel rest k

/-- Mutable fields of the LocalSingleton instance. The pid field is absent
until the first successful start (Python creates the attribute only then). -/
structure State where
  key : PyVal
  options : List (String × PyVal)
  local_logfile_path : PyVal
  binary_path : PyVal
  pid : Option Json

/-- First-time initialization performed by LocalSingleton.__init__: the key
is os.environ.get("BROWSERSTACK_ACCESS_KEY", key), the options are the
constructor keyword arguments, the log file path is cwd/local.log, and the
binary path is the constructor argument. env is the environment variable's
value if set. -/
def initState (env : Option String) (key : Option String)
    (binary_path : Option String) (cwd : String)
    (kwargs : List (String × PyVal)) : State :=
  { key :=
      pyOfOptStr
        (match env with
         | some e => some e
         | none => key)
  , options := kwargs
  , local_logfile_path := .pstr (cwd ++ "/local.log")
  , binary_path := pyOfOptStr binary_path
  , pid := none }

/-- The private __xstr helper: stringify one key-value pair into command
tokens. -/
def xstr (key : Option String) (value : PyVal) : List PyVal :=
  match key with
  | none => [.pstr ""]
  | some k =>
    if pyLower (pyToString value) = "true" then [.pstr ("-" ++ k)]
    else if pyLower (pyToString value) = "false" then [.pstr ""]
    else [.pstr ("-" ++ k), value]

/-- The fixed nine-token head of the start command built by _generate_cmd. -/
def cmdPrefix (ver : String) (st : State) : List PyVal :=
  [st.binary_path, .pstr "-d", .pstr "start", .pstr "-logFile",
   st.local_logfile_path, .pstr "-k", st.key, .pstr "--source",
   .pstr ("python:" ++ ver)]

/-- One iteration of the option loop in _generate_cmd: values that are None
are skipped, every other option contributes its xstr tokens. -/
def addOption (cmd : List PyVal) (kv : String × PyVal) : List PyVal :=
  if kv.2 = PyVal.pnone then cmd else cmd ++ xstr (some kv.1) kv.2

/-- The tokens the option loop of _generate_cmd appends after the fixed
head. -/
def optTokens (opts : List (String × PyVal)) : List PyVal :=
  opts.foldl addOption []

/-- The _generate_cmd method; ver is the package version resolved by
get_package_version at call time. -/
def generate_cmd (ver : String) (st : State) : List PyVal :=
  st.options.foldl addOption (cmdPrefix ver st)

/-- The _generate_stop_cmd method: build the start command and overwrite the
sub-command token at index 2 with "stop". -/
def generate_stop_cmd (ver : String) (st : State) : List PyVal :=
  (generate_cmd ver st).set 2 (.pstr "stop")

/-- The guard at lines 128-129 of the source: the onlyCommand key must be in
this call's keyword arguments and its value truthy. -/
def onlyCommandTruthy (kwargs : List (String × PyVal)) : Bool :=
  match dictGet kwargs "onlyCommand" with
  | some v => pyTruthy v
  | none => false

/-- Exceptions that can escape the start method. -/
inductive PyFailure where
  | bsLocal (payload : Json)
  | resolverError (msg : String)
  | keyOrTypeError

/-- Python's comparison data["state"] == "connected" for a decoded JSON
value: true exactly when the value is the JSON string "connected". -/
def isConnectedStr : Json → Bool
  | .str s => s == "connected"
  | _ => false

/-- Merging of this call's keyword arguments into the stored option mapping,
one dict assignment per pair in order (the first loop of start). -/
def mergeKwargs (options kwargs : List (String × PyVal)) : List (String × PyVal) :=
  kwargs.foldl (fun acc kv => dictSet acc kv.1 kv.2) options

/-- The key-extraction step of start: if a "key" option is present its value
moves into the access-key field and the option is deleted; the result is the
new (key, options) pair. -/
def startKeyStep (st : State) (opts0 : List (String × PyVal)) :
    PyVal × List (String × PyVal) :=
  match dictGet opts0 "key" with
  | some v => (v, dictDel opts0 "key")
  | none => (st.key, opts0)

/-- Observable outcome of one start call: the mutated singleton state, the
exception if one escaped, whether a child process was spawned, and whether
the log file was truncated. -/
structure StartResult where
  state : State
  err : Option PyFailure
  spawned : Bool
  truncated : Bool

/-- Tail of the start method from the onlyCommand guard onward: dry-run
early return, source-key removal, spawn, log truncation, and handshake
parsing. st1 already reflects the key / binarypath / logfile extraction;
out and errS are the child's decoded stdout and stderr. -/
def startPhase2 (st1 : State) (kwargs : List (String × PyVal))
    (out errS : String) : StartResult :=
  if onlyCommandTruthy kwargs then
    { state := st1, err := none, spawned := false, truncated := false }
  else
    let st2 : State := { st1 with options := dictDel st1.options "source" }
    let output_string := if out.isEmpty then errS else out
    match jsonParse output_string with
    | none =>
      { state := st2
      , err := some (.bsLocal (.str
          ("Error parsing JSON output from daemon. Raw String = \"" ++
            output_string ++ "\"")))
      , spawned := true, truncated := true }
    | some data =>
      match jsonGet data "state" with
      | .error _ =>
        { state := st2, err := some .keyOrTypeError, spawned := true, truncated := true }
      | .ok s =>
        if isConnectedStr s then
          match jsonGet data "pid" with
          | .error _ =>
            { state := st2, err := some .keyOrTypeError, spawned := true, truncated := true }
          | .ok p =>
            { state := { st2 with pid := some p }
            , err := none, spawned := true, truncated := true }
        else
          match jsonGet data "message" with
          | .error _ =>
            { state := st2, err := some .keyOrTypeError, spawned := true, truncated := true }
          | .ok m =>
            match jsonGet m "message" with
            | .error _ =>
              { state := st2, err := some .keyOrTypeError, spawned := true, truncated := true }
            | .ok mm =>
              { state := st2, err := some (.bsLocal mm), spawned := true, truncated := true }

/-- Logfile extraction step of start, between binary-path resolution and the
onlyCommand guard. -/
def startPhase1 (st1 : State) (kwargs : List (String × PyVal))
    (out errS : String) : StartResult :=
  match dictGet st1.options "logfile" with
  | some v =>
    startPhase2
      { st1 with local_logfile_path := v, options := dictDel st1.options "logfile" }
      kwargs out errS
  | none => startPhase2 st1 kwargs out errS

/-- The start method. kwargs are this call's keyword arguments, resolver is
the outcome of LocalBinary().get_binary() (consulted only when no binarypath
option is present), and out/errS are the decoded stdout and stderr produced
by the spawned daemon. -/
def start (st : State) (kwargs : List (String × PyVal))
    (resolver : Except String String) (out errS : String) : StartResult :=
  let kp := startKeyStep st (mergeKwargs st.options kwargs)
  match dictGet kp.2 "binarypath" with
  | some v =>
    startPhase1
      { key := kp.1, options := dictDel kp.2 "binarypath"
      , local_logfile_path := st.local_logfile_path
      , binary_path := v, pid := st.pid }
      kwargs out errS
  | none =>
    match resolver with
    | Except.error e =>
      { state :=
          { key := kp.1, options := kp.2
          , local_logfile_path := st.local_logfile_path
          , binary_path := st.binary_path, pid := st.pid }
      , err := some (.resolverError e), spawned := false, truncated := false }
    | Except.ok p =>
      startPhase1
        { key := kp.1, options := kp.2
        , local_logfile_path := st.local_logfile_path
        , binary_path := .pstr p, pid := st.pid }
        kwargs out errS

/-- The is_running method: hasattr(self, "pid") and psutil.pid_exists(pid),
with OS process liveness supplied as the function pid_exists. -/
def is_running (st : State) (pid_exists : Json → Bool) : Bool :=
  match st.pid with
  | none => false
  | some p => pid_exists p

/-- Observable outcome of one stop call: the command built for the stop
invocation, the exception escaping the method if any, and the logged error
messages. -/
structure StopResult where
  cmd : List PyVal
  raised : Option PyFailure
  logged : List String

/-- The stop method: build the stop command, spawn it and wait; any
exception from the spawn/wait (supplied as spawnWait) is caught and logged,
and nothing escapes. -/
def stop (st : State) (ver : String) (spawnWait : Except String Unit) : StopResult :=
  match spawnWait with
  | Except.ok _ =>
    { cmd := generate_stop_cmd ver st, raised := none, logged := [] }
  | Except.error e =>
    { cmd := generate_stop_cmd ver st, raised := none
    , logged := ["Error stopping BrowserStack Local: " ++ e] }

/-! Helper lemmas about the dict operations. -/

theorem dictGet_dictSet_self (m : List (String × PyVal)) (k : String) (v : PyVal) :
    dictGet (dictSet m k v) k = some v := by
  induction m with
  | nil => simp [dictSet, dictGet]
  | cons kv rest ih =>
    by_cases h : kv.1 = k
    · simp [dictSet, dictGet, h]
    · simp [dictSet, dictGet, h, ih]

theorem dictGet_dictSet_ne (m : List (String × PyVal)) (k k2 : String) (v : PyVal)
    (h : k ≠ k2) : dictGet (dictSet m k2 v) k = dictGet m k := by
  induction m with
  | nil => simp [dictSet, dictGet, Ne.symm h]
  | cons kv rest ih =>
    by_cases h2 : kv.1 = k2
    · simp [dictSet, dictGet, h2, Ne.symm h]
    · simp [dictSet, dictGet, h2, ih]

theorem dictGet_dictDel_ne (m : List (String × PyVal)) (k k2 : String)
    (h : k ≠ k2) : dictGet (dictDel m k2) k = dictGet m k := by
  induction m with
  | nil => simp [dictDel]
  | cons kv rest ih =>
    by_cases h2 : kv.1 = k2
    · have hne : ¬ kv.1 = k := by
        intro hh
        exact h (hh ▸ h2)
      simp [dictDel, dictGet, h2, hne, Ne.symm h]
    · simp [dictDel, dictGet, h2, ih]

theorem dictGet_eq_none (l : List (String × PyVal)) (k : String)
    (h : k ∉ l.map Prod.fst) : dictGet l k = none := by
  induction l with
  | nil => rfl
  | cons kv rest ih =>
    simp only [List.map_cons, List.mem_cons] at h
    push_neg at h
    simp [dictGet, Ne.symm h.1, ih h.2]

theorem dictGet_mergeKwargs_absent (l : List (String × PyVal)) (k : String)
    (h : dictGet l k = none) (m : List (String × PyVal)) :
    dictGet (mergeKwargs m l) k = dictGet m k := by
  induction l generalizing m with
  | nil => rfl
  | cons kv rest ih =>
    simp only [dictGet] at h
    by_cases hk : kv.1 = k
    · simp [hk] at h
    · simp only [hk, if_false] at h
      show dictGet (mergeKwargs (dictSet m kv.1 kv.2) rest) k = dictGet m k
      rw [ih h, dictGet_dictSet_ne _ _ _ _ (fun hh => hk hh.symm)]

theorem dictGet_mergeKwargs (l : List (String × PyVal)) (k : String) (v : PyVal)
    (hnd : (l.map Prod.fst).Nodup) (h : dictGet l k = some v)
    (m : List (String × PyVal)) :
    dictGet (mergeKwargs m l) k = some v := by
  induction l generalizing m with
  | nil => simp [dictGet] at h
  | cons kv rest ih =>
    simp only [List.map_cons, List.nodup_cons] at hnd
    by_cases hk : kv.1 = k
    · have h2 : kv.2 = v := by simpa [dictGet, hk] using h
      have hrest : dictGet rest k = none := by
        apply dictGet_eq_none
        intro hmem
        exact hnd.1 (hk ▸ hmem)
      show dictGet (mergeKwargs (dictSet m kv.1 kv.2) rest) k = some v
      rw [dictGet_mergeKwargs_absent rest k hrest, hk, h2]
      exact dictGet_dictSet_self m k v
    · simp only [dictGet, hk, if_false] at h
      exact ih hnd.2 h (dictSet m kv.1 kv.2)

/-! Helper lemmas about command generation. -/

theorem addOption_split (init : List PyVal) (kv : String × PyVal) :
    addOption init kv = init ++ addOption [] kv := by
  unfold addOption
  split
  · simp
  · simp

theorem foldl_addOption (opts : List (String × PyVal)) :
    ∀ init, opts.foldl addOption init = init ++ optTokens opts := by
  induction opts with
  | nil => intro init; simp [optTokens]
  | cons kv rest ih =>
    intro init
    show rest.foldl addOption (addOption init kv) = init ++ optTokens (kv :: rest)
    have h2 : optTokens (kv :: rest) = addOption [] kv ++ optTokens rest := by
      show rest.foldl addOption (addOption [] kv) = addOption [] kv ++ optTokens rest
      exact ih (addOption [] kv)
    rw [ih (addOption init kv), h2, addOption_split init kv, List.append_assoc]

theorem generate_cmd_eq (ver : String) (st : State) :
    generate_cmd ver st = cmdPrefix ver st ++ optTokens st.options :=
  foldl_addOption st.options (cmdPrefix ver st)

theorem generate_stop_cmd_eq (ver : String) (st : State) :
    generate_stop_cmd ver st =
      [st.binary_path, .pstr "-d", .pstr "stop", .pstr "-logFile",
       st.local_logfile_path, .pstr "-k", st.key, .pstr "--source",
       .pstr ("python:" ++ ver)] ++ optTokens st.options := by
  rw [generate_stop_cmd, generate_cmd_eq]
  rfl

theorem mem_optTokens (opts : List (String × PyVal)) (k : String) (v : PyVal)
    (t : PyVal) (hget : dictGet opts k = some v) (hv : v ≠ PyVal.pnone)
    (ht : t ∈ xstr (some k) v) : t ∈ optTokens opts := by
  induction opts with
  | nil => simp [dictGet] at hget
  | cons kv rest ih =>
    have hsplit : optTokens (kv :: rest) = addOption [] kv ++ optTokens rest := by
      show rest.foldl addOption (addOption [] kv) = addOption [] kv ++ optTokens rest
      exact foldl_addOption rest (addOption [] kv)
    rw [hsplit]
    by_cases hk : kv.1 = k
    · have hget2 : kv.2 = v := by simpa [dictGet, hk] using hget
      have hv2 : addOption [] kv = xstr (some k) v := by
        unfold addOption
        simp [hget2, hk, hv]
      exact List.mem_append_left _ (hv2 ▸ ht)
    · simp only [dictGet, hk, if_false] at hget
      exact List.mem_append_right _ (ih hget)

theorem mem_generate_cmd (ver : String) (st : State) (k : String) (v : PyVal)
    (t : PyVal) (hget : dictGet st.options k = some v) (hv : v ≠ PyVal.pnone)
    (ht : t ∈ xstr (some k) v) : t ∈ generate_cmd ver st := by
  rw [generate_cmd_eq]
  exact List.mem_append_right _ (mem_optTokens st.options k v t hget hv ht)

theorem mem_generate_stop_cmd (ver : String) (st : State) (k : String) (v : PyVal)
    (t : PyVal) (hget : dictGet st.options k = some v) (hv : v ≠ PyVal.pnone)
    (ht : t ∈ xstr (some k) v) : t ∈ generate_stop_cmd ver st := by
  rw [generate_stop_cmd_eq]
  exact List.mem_append_right _ (mem_optTokens st.options k v t hget hv ht)

/-! Helper lemmas about the phases of start. -/

theorem startPhase2_dry (st1 : State) (kwargs : List (String × PyVal))
    (out errS : String) (hoc : onlyCommandTruthy kwargs = true) :
    startPhase2 st1 kwargs out errS =
      { state := st1, err := none, spawned := false, truncated := false } := by
  simp [startPhase2, hoc]

theorem startPhase2_parse_fail (st1 : State) (kwargs : List (String × PyVal))
    (out errS : String) (hoc : onlyCommandTruthy kwargs = false)
    (hp : jsonParse (if out.isEmpty then errS else out) = none) :
    startPhase2 st1 kwargs out errS =
      { state := { st1 with options := dictDel st1.options "source" }
      , err := some (.bsLocal (.str
          ("Error parsing JSON output from daemon. Raw String = \"" ++
            (if out.isEmpty then errS else out) ++ "\"")))
      , spawned := true, truncated := true } := by
  simp [startPhase2, hoc, hp]

theorem startPhase2_reject (st1 : State) (kwargs : List (String × PyVal))
    (out errS : String) (data s m mm : Json)
    (hoc : onlyCommandTruthy kwargs = false)
    (hp : jsonParse (if out.isEmpty then errS else out) = some data)
    (hs : jsonGet data "state" = Except.ok s)
    (hcs : isConnectedStr s = false)
    (hm : jsonGet data "message" = Except.ok m)
    (hmm : jsonGet m "message" = Except.ok mm) :
    startPhase2 st1 kwargs out errS =
      { state := { st1 with options := dictDel st1.options "source" }
      , err := some (.bsLocal mm), spawned := true, truncated := true } := by
  simp [startPhase2, hoc, hp, hs, hcs, hm, hmm]

theorem startPhase2_connected (st1 : State) (kwargs : List (String × PyVal))
    (out errS : String) (data p : Json)
    (hoc : onlyCommandTruthy kwargs = false)
    (hp : jsonParse (if out.isEmpty then errS else out) = some data)
    (hs : jsonGet data "state" = Except.ok (Json.str "connected"))
    (hpid : jsonGet data "pid" = Except.ok p) :
    startPhase2 st1 kwargs out errS =
      { state := { st1 with options := dictDel st1.options "source", pid := some p }
      , err := none, spawned := true, truncated := true } := by
  simp [startPhase2, hoc, hp, hs, hpid, isConnectedStr]

theorem startPhase2_pid_disj (st1 : State) (kwargs : List (String × PyVal))
    (out errS : String) :
    (startPhase2 st1 kwargs out errS).state.pid = st1.pid ∨
    (startPhase2 st1 kwargs out errS).err = none := by
  cases hoc : onlyCommandTruthy kwargs
  · cases hp : jsonParse (if out.isEmpty then errS else out) with
    | none => left; simp [startPhase2, hoc, hp]
    | some data =>
      cases hgs : jsonGet data "state" with
      | error u => left; simp [startPhase2, hoc, hp, hgs]
      | ok s =>
        cases hcs : isConnectedStr s
        · cases hm : jsonGet data "message" with
          | error u => left; simp [startPhase2, hoc, hp, hgs, hcs, hm]
          | ok m =>
            cases hmm : jsonGet m "message" with
            | error u => left; simp [startPhase2, hoc, hp, hgs, hcs, hm, hmm]
            | ok mm => left; simp [startPhase2, hoc, hp, hgs, hcs, hm, hmm]
        · cases hpd : jsonGet data "pid" with
          | error u => left; simp [startPhase2, hoc, hp, hgs, hcs, hpd]
          | ok p => right; simp [startPhase2, hoc, hp, hgs, hcs, hpd]
  · left; simp [startPhase2, hoc]

theorem startPhase2_options (st1 : State) (kwargs : List (String × PyVal))
    (out errS : String) (k : String) (h4 : k ≠ "source") :
    dictGet (startPhase2 st1 kwargs out errS).state.options k =
      dictGet st1.options k := by
  have hdel : dictGet (dictDel st1.options "source") k = dictGet st1.options k :=
    dictGet_dictDel_ne st1.options k "source" h4
  cases hoc : onlyCommandTruthy kwargs
  · cases hp : jsonParse (if out.isEmpty then errS else out) with
    | none => simp [startPhase2, hoc, hp, hdel]
    | some data =>
      cases hgs : jsonGet data "state" with
      | error u => simp [startPhase2, hoc, hp, hgs, hdel]
      | ok s =>
        cases hcs : isConnectedStr s
        · cases hm : jsonGet data "message" with
          | error u => simp [startPhase2, hoc, hp, hgs, hcs, hm, hdel]
          | ok m =>
            cases hmm : jsonGet m "message" with
            | error u => simp [startPhase2, hoc, hp, hgs, hcs, hm, hmm, hdel]
            | ok mm => simp [startPhase2, hoc, hp, hgs, hcs, hm, hmm, hdel]
        · cases hpd : jsonGet data "pid" with
          | error u => simp [startPhase2, hoc, hp, hgs, hcs, hpd, hdel]
          | ok p => simp [startPhase2, hoc, hp, hgs, hcs, hpd, hdel]
  · simp [startPhase2, hoc]

theorem startPhase1_phase2 (st1 : State) (kwargs : List (String × PyVal))
    (out errS : String) :
    ∃ st2, startPhase1 st1 kwargs out errS = startPhase2 st2 kwargs out errS ∧
      st2.pid = st1.pid ∧
      (∀ k, k ≠ "logfile" → dictGet st2.options k = dictGet st1.options k) := by
  cases hl : dictGet st1.options "logfile" with
  | some v =>
    refine ⟨{ st1 with local_logfile_path := v, options := dictDel st1.options "logfile" },
      by simp [startPhase1, hl], rfl, ?_⟩
    intro k hk
    exact dictGet_dictDel_ne st1.options k "logfile" hk
  | none => exact ⟨st1, by simp [startPhase1, hl], rfl, fun k hk => rfl⟩

theorem startKeyStep_get (st : State) (opts0 : List (String × PyVal))
    (k : String) (hk : k ≠ "key") :
    dictGet (startKeyStep st opts0).2 k = dictGet opts0 k := by
  cases h : dictGet opts0 "key" with
  | some v =>
    simp only [startKeyStep, h]
    exact dictGet_dictDel_ne opts0 k "key" hk
  | none => simp [startKeyStep, h]

theorem startKeyStep_pairs (st : State) (opts0 : List (String × PyVal)) :
    startKeyStep st opts0 =
      ((startKeyStep st opts0).1, (startKeyStep st opts0).2) := rfl

theorem start_ok_phase2 (st : State) (kwargs : List (String × PyVal))
    (bin out errS : String) :
    ∃ st2, start st kwargs (Except.ok bin) out errS = startPhase2 st2 kwargs out errS ∧
      st2.pid = st.pid ∧
      (∀ k, k ≠ "key" → k ≠ "binarypath" → k ≠ "logfile" →
        dictGet st2.options k = dictGet (mergeKwargs st.options kwargs) k) := by
  cases hb : dictGet (startKeyStep st (mergeKwargs st.options kwargs)).2 "binarypath" with
  | some v =>
    obtain ⟨st2, heq, hpid, hopts⟩ :=
      startPhase1_phase2
        { key := (startKeyStep st (mergeKwargs st.options kwargs)).1
        , options := dictDel (startKeyStep st (mergeKwargs st.options kwargs)).2 "binarypath"
        , local_logfile_path := st.local_logfile_path
        , binary_path := v, pid := st.pid }
        kwargs out errS
    refine ⟨st2, ?_, hpid, ?_⟩
    · rw [← heq]
      simp [start, hb]
    · intro k h1 h2 h3
      rw [hopts k h3]
      show dictGet (dictDel (startKeyStep st (mergeKwargs st.options kwargs)).2 "binarypath") k = _
      rw [dictGet_dictDel_ne _ k "binarypath" h2]
      exact startKeyStep_get st (mergeKwargs st.options kwargs) k h1
  | none =>
    obtain ⟨st2, heq, hpid, hopts⟩ :=
      startPhase1_phase2
        { key := (startKeyStep st (mergeKwargs st.options kwargs)).1
        , options := (startKeyStep st (mergeKwargs st.options kwargs)).2
        , local_logfile_path := st.local_logfile_path
        , binary_path := .pstr bin, pid := st.pid }
        kwargs out errS
    refine ⟨st2, ?_, hpid, ?_⟩
    · rw [← heq]
      simp [start, hb]
    · intro k h1 h2 h3
      rw [hopts k h3]
      exact startKeyStep_get st (mergeKwargs st.options kwargs) k h1

theorem start_pid_disj (st : State) (kwargs : List (String × PyVal))
    (res : Except String String) (out errS : String) :
    (start st kwargs res out errS).state.pid = st.pid ∨
    (start st kwargs res out errS).err = none := by
  cases hb : dictGet (startKeyStep st (mergeKwargs st.options kwargs)).2 "binarypath" with
  | some v =>
    have heq :
        start st kwargs res out errS =
          startPhase1
            { key := (startKeyStep st (mergeKwargs st.options kwargs)).1
            , options := dictDel (startKeyStep st (mergeKwargs st.options kwargs)).2 "binarypath"
            , local_logfile_path := st.local_logfile_path
            , binary_path := v, pid := st.pid }
            kwargs out errS := by
      simp [start, hb]
    rw [heq]
    obtain ⟨st2, heq2, hpid, _⟩ := startPhase1_phase2 _ kwargs out errS
    rw [heq2]
    rcases startPhase2_pid_disj st2 kwargs out errS with h | h
    · exact Or.inl (h.trans hpid)
    · exact Or.inr h
  | none =>
    cases res with
    | error e =>
      have heq :
          (start st kwargs (Except.error e) out errS).state.pid = st.pid := by
        simp [start, hb]
      exact Or.inl heq
    | ok p =>
      have heq :
          start st kwargs (Except.ok p) out errS =
            startPhase1
              { key := (startKeyStep st (mergeKwargs st.options kwargs)).1
              , options := (startKeyStep st (mergeKwargs st.options kwargs)).2
              , local_logfile_path := st.local_logfile_path
              , binary_path := .pstr p, pid := st.pid }
              kwargs out errS := by
        simp [start, hb]
      rw [heq]
      obtain ⟨st2, heq2, hpid, _⟩ := startPhase1_phase2 _ kwargs out errS
      rw [heq2]
      rcases startPhase2_pid_disj st2 kwargs out errS with h | h
      · exact Or.inl (h.trans hpid)
      · exact Or.inr h

theorem start_options_get (st : State) (kwargs : List (String × PyVal))
    (res : Except String String) (out errS : String) (k : String)
    (h1 : k ≠ "key") (h2 : k ≠ "binarypath") (h3 : k ≠ "logfile") (h4 : k ≠ "source") :
    dictGet (start st kwargs res out errS).state.options k =
      dictGet (mergeKwargs st.options kwargs) k := by
  cases hb : dictGet (startKeyStep st (mergeKwargs st.options kwargs)).2 "binarypath" with
  | some v =>
    have heq :
        start st kwargs res out errS =
          startPhase1
            { key := (startKeyStep st (mergeKwargs st.options kwargs)).1
            , options := dictDel (startKeyStep st (mergeKwargs st.options kwargs)).2 "binarypath"
            , local_logfile_path := st.local_logfile_path
            , binary_path := v, pid := st.pid }
            kwargs out errS := by
      simp [start, hb]
    rw [heq]
    obtain ⟨st2, heq2, _, hopts⟩ := startPhase1_phase2 _ kwargs out errS
    rw [heq2, startPhase2_options st2 kwargs out errS k h4, hopts k h3]
    show dictGet (dictDel (startKeyStep st (mergeKwargs st.options kwargs)).2 "binarypath") k = _
    rw [dictGet_dictDel_ne _ k "binarypath" h2]
    exact startKeyStep_get st (mergeKwargs st.options kwargs) k h1
  | none =>
    cases res with
    | error e =>
      have heq :
          dictGet (start st kwargs (Except.error e) out errS).state.options k =
            dictGet (startKeyStep st (mergeKwargs st.options kwargs)).2 k := by
        simp [start, hb]
      rw [heq]
      exact startKeyStep_get st (mergeKwargs st.options kwargs) k h1
    | ok p =>
      have heq :
          start st kwargs (Except.ok p) out errS =
            startPhase1
              { key := (startKeyStep st (mergeKwargs st.options kwargs)).1
              , options := (startKeyStep st (mergeKwargs st.options kwargs)).2
              , local_logfile_path := st.local_logfile_path
              , binary_path := .pstr p, pid := st.pid }
              kwargs out errS := by
        simp [start, hb]
      rw [heq]
      obtain ⟨st2, heq2, _, hopts⟩ := startPhase1_phase2 _ kwargs out errS
      rw [heq2, startPhase2_options st2 kwargs out errS k h4, hopts k h3]
      exact startKeyStep_get st (mergeKwargs st.options kwargs) k h1

/-! Concrete states and daemon outputs used by witnesses and counterexamples. -/

/-- A freshly constructed singleton: LocalSingleton(key="KEY") with no
environment variable set and working directory /w. -/
def wSt : State := initState none (some "KEY") none "/w" []

/-- A successful handshake emitted by the daemon. -/
def okOut : String := "\x7b\"state\":\"connected\",\"pid\":4321\x7d"

/-- A rejecting handshake emitted by the daemon. -/
def errOut : String := "\x7b\"state\":\"error\",\"message\":\x7b\"message\":\"bad key\"\x7d\x7d"

/-- A resolved binary path. -/
def wBin : String := "/bin/BrowserStackLocal"

/-- A successful start from the fresh singleton. -/
def cexRun1 : StartResult := start wSt [] (Except.ok wBin) okOut ""

/-- A failing start (unparseable daemon output) performed after the
successful one. -/
def cexRun2 : StartResult := start cexRun1.state [] (Except.ok wBin) "oops" ""

/-- A singleton state with one stored option, used for command-shape
witnesses. -/
def wSt5 : State :=
  { key := PyVal.pstr "KEY", options := [("forcelocal", PyVal.pbool true)]
  , local_logfile_path := PyVal.pstr "/w/local.log"
  , binary_path := PyVal.pstr "/bin/BrowserStackLocal", pid := none }

/-- A singleton state with a recorded process identifier. -/
def wStPid : State :=
  { key := PyVal.pstr "KEY", options := []
  , local_logfile_path := PyVal.pstr "/w/local.log"
  , binary_path := PyVal.pnone, pid := some (Json.num 4321) }

/-! Claim theorems. -/

/-- C1 (counterexample): the claim that a value whose string form equals
"false" makes the builder produce zero tokens is false at the concrete key
"forcelocal": the builder produces exactly one token, the empty string. -/
theorem xstr_false_not_empty :
    xstr (some "forcelocal") (PyVal.pstr "false") = [PyVal.pstr ""] ∧
    xstr (some "forcelocal") (PyVal.pstr "false") ≠ [] :=
  ⟨rfl, by decide⟩

/-- C1 (amended): for every key and value, a value whose lower-cased string
form is "true" yields exactly the one token -key; a value whose lower-cased
string form is "false" yields exactly one empty-string token; any other
value yields exactly the two tokens -key and the value itself. -/
theorem xstr_cases (k : String) (v : PyVal) :
    (pyLower (pyToString v) = "true" → xstr (some k) v = [PyVal.pstr ("-" ++ k)]) ∧
    (pyLower (pyToString v) = "false" → xstr (some k) v = [PyVal.pstr ""]) ∧
    (pyLower (pyToString v) ≠ "true" → pyLower (pyToString v) ≠ "false" →
      xstr (some k) v = [PyVal.pstr ("-" ++ k), v]) := by
  refine ⟨?_, ?_, ?_⟩
  · intro h
    simp [xstr, h]
  · intro h
    simp [xstr, h]
  · intro h1 h2
    simp [xstr, h1, h2]

/-- C1 (witness): the three builder cases evaluated at concrete options. -/
theorem xstr_cases_witness :
    xstr (some "local") (PyVal.pbool true) = [PyVal.pstr "-local"] ∧
    xstr (some "local") (PyVal.pstr "False") = [PyVal.pstr ""] ∧
    xstr (some "proxyHost") (PyVal.pstr "example.com") =
      [PyVal.pstr "-proxyHost", PyVal.pstr "example.com"] :=
  ⟨(xstr_cases "local" (PyVal.pbool true)).1 (by decide),
   (xstr_cases "local" (PyVal.pstr "False")).2.1 (by decide),
   (xstr_cases "proxyHost" (PyVal.pstr "example.com")).2.2 (by decide) (by decide)⟩

/-- C2 (counterexample): constructing the singleton with the environment
variable set to ENVKEY and explicit key argument ARGKEY records ENVKEY, not
ARGKEY — the explicit construction argument does not take precedence. -/
theorem initState_env_overrides_explicit_key :
    (initState (some "ENVKEY") (some "ARGKEY") none "/w" []).key = PyVal.pstr "ENVKEY" ∧
    (initState (some "ENVKEY") (some "ARGKEY") none "/w" []).key ≠ PyVal.pstr "ARGKEY" :=
  ⟨rfl, by decide⟩

/-- C2 (amended): at singleton construction the environment variable
BROWSERSTACK_ACCESS_KEY takes precedence whenever it is set; the explicit
key argument is used only as the fallback default when the environment
variable is absent. -/
theorem initState_key_precedence (e : String) (key bp : Option String)
    (cwd : String) (kwargs : List (String × PyVal)) :
    (initState (some e) key bp cwd kwargs).key = PyVal.pstr e ∧
    ∀ key2 : Option String, (initState none key2 bp cwd kwargs).key = pyOfOptStr key2 :=
  ⟨rfl, fun _ => rfl⟩

/-- C3 (counterexample): after a successful start records pid 4321, a
subsequent failing start (unparseable daemon output) raises, yet the
process-identifier field is not left unset: it still holds 4321. -/
theorem start_error_keeps_previous_pid :
    cexRun1.err = none ∧
    cexRun1.state.pid = some (Json.num 4321) ∧
    cexRun2.err ≠ none ∧
    cexRun2.state.pid ≠ none :=
  ⟨rfl, rfl, fun h => Option.noConfusion h, fun h => Option.noConfusion h⟩

/-- C3 (amended): on every error path start leaves the process-identifier
field unchanged from before the call — in particular it stays unset when no
earlier start succeeded, and it keeps the earlier value after a failing
start that follows a successful one. -/
theorem start_pid_unchanged_on_error (st : State) (kwargs : List (String × PyVal))
    (res : Except String String) (out errS : String)
    (h : (start st kwargs res out errS).err ≠ none) :
    (start st kwargs res out errS).state.pid = st.pid := by
  rcases start_pid_disj st kwargs res out errS with hp | he
  · exact hp
  · exact absurd he h

/-- C3 (witness): the amended theorem applied to the concrete failing start
that follows a successful one. -/
theorem start_pid_unchanged_on_error_witness :
    cexRun2.state.pid = cexRun1.state.pid :=
  start_pid_unchanged_on_error cexRun1.state [] (Except.ok wBin) "oops" ""
    (fun h => Option.noConfusion h)

/-- C4 (counterexample): with onlyCommand=True passed and truthy but no
binarypath option, binary resolution runs before the onlyCommand guard, so a
resolution failure makes start raise — refuting that no error is ever
raised in dry-run mode. No process is spawned all the same. -/
theorem start_onlyCommand_resolver_error :
    (start wSt [("onlyCommand", PyVal.pbool true)] (Except.error "download failed") "" "").err =
      some (PyFailure.resolverError "download failed") ∧
    (start wSt [("onlyCommand", PyVal.pbool true)] (Except.error "download failed") "" "").err ≠
      none ∧
    (start wSt [("onlyCommand", PyVal.pbool true)] (Except.error "download failed") "" "").spawned =
      false :=
  ⟨rfl, fun h => Option.noConfusion h, rfl⟩

/-- C4 (amended): if this call's keyword arguments contain a truthy
onlyCommand option and binary resolution does not fail, start returns
without spawning a child process, without truncating the log file, and
without raising. -/
theorem start_onlyCommand_dry_run (st : State) (kwargs : List (String × PyVal))
    (bin out errS : String) (hoc : onlyCommandTruthy kwargs = true) :
    (start st kwargs (Except.ok bin) out errS).spawned = false ∧
    (start st kwargs (Except.ok bin) out errS).truncated = false ∧
    (start st kwargs (Except.ok bin) out errS).err = none := by
  obtain ⟨st2, heq, _, _⟩ := start_ok_phase2 st kwargs bin out errS
  rw [heq, startPhase2_dry st2 kwargs out errS hoc]
  exact ⟨rfl, rfl, rfl⟩

/-- C4 (witness): the amended theorem at start(onlyCommand=True) with a
successfully resolved binary. -/
theorem start_onlyCommand_dry_run_witness :
    (start wSt [("onlyCommand", PyVal.pbool true)] (Except.ok wBin) "" "").spawned = false ∧
    (start wSt [("onlyCommand", PyVal.pbool true)] (Except.ok wBin) "" "").truncated = false ∧
    (start wSt [("onlyCommand", PyVal.pbool true)] (Except.ok wBin) "" "").err = none :=
  start_onlyCommand_dry_run wSt [("onlyCommand", PyVal.pbool true)] wBin "" "" rfl

/-- C5 (confirmed): for every singleton state and package version, the stop
command has the same length as the start command, the token at index 2 is
"start" in the start command and "stop" in the stop command, and every
other index holds identical tokens. -/
theorem stop_cmd_differs_only_at_subcommand (ver : String) (st : State) :
    (generate_stop_cmd ver st).length = (generate_cmd ver st).length ∧
    (generate_cmd ver st)[2]? = some (PyVal.pstr "start") ∧
    (generate_stop_cmd ver st)[2]? = some (PyVal.pstr "stop") ∧
    ∀ i : Nat, i ≠ 2 → (generate_stop_cmd ver st)[i]? = (generate_cmd ver st)[i]? := by
  have h1 : generate_cmd ver st =
      st.binary_path :: PyVal.pstr "-d" :: PyVal.pstr "start" ::
        (PyVal.pstr "-logFile" :: st.local_logfile_path :: PyVal.pstr "-k" ::
         st.key :: PyVal.pstr "--source" :: PyVal.pstr ("python:" ++ ver) ::
         optTokens st.options) := by
    rw [generate_cmd_eq]
    rfl
  have h2 : generate_stop_cmd ver st =
      st.binary_path :: PyVal.pstr "-d" :: PyVal.pstr "stop" ::
        (PyVal.pstr "-logFile" :: st.local_logfile_path :: PyVal.pstr "-k" ::
         st.key :: PyVal.pstr "--source" :: PyVal.pstr ("python:" ++ ver) ::
         optTokens st.options) := by
    rw [generate_stop_cmd_eq]
    rfl
  rw [h1, h2]
  refine ⟨rfl, rfl, rfl, ?_⟩
  intro i hi
  rcases i with _ | (_ | (_ | n))
  · rfl
  · rfl
  · exact absurd rfl hi
  · rfl

/-- C5 (witness): the relation evaluated at a concrete state with one
stored option, including one index other than 2. -/
theorem stop_cmd_differs_only_at_subcommand_witness :
    (generate_stop_cmd "1.0.0" wSt5).length = (generate_cmd "1.0.0" wSt5).length ∧
    (generate_cmd "1.0.0" wSt5)[2]? = some (PyVal.pstr "start") ∧
    (generate_stop_cmd "1.0.0" wSt5)[2]? = some (PyVal.pstr "stop") ∧
    (generate_stop_cmd "1.0.0" wSt5)[9]? = (generate_cmd "1.0.0" wSt5)[9]? :=
  ⟨(stop_cmd_differs_only_at_subcommand "1.0.0" wSt5).1,
   (stop_cmd_differs_only_at_subcommand "1.0.0" wSt5).2.1,
   (stop_cmd_differs_only_at_subcommand "1.0.0" wSt5).2.2.1,
   (stop_cmd_differs_only_at_subcommand "1.0.0" wSt5).2.2.2 9 (by decide)⟩

/-- C6 (confirmed): when a process is spawned (no truthy onlyCommand in the
call) and the chosen output — stdout, or stderr when stdout is empty —
does not decode as JSON, start raises the parse error whose payload is the
fixed message carrying the raw output string; the payload contains the raw
string, and an empty stdout means the chosen output is stderr. -/
theorem start_parse_error_payload (st : State) (kwargs : List (String × PyVal))
    (bin out errS : String)
    (hoc : onlyCommandTruthy kwargs = false)
    (hp : jsonParse (if out.isEmpty then errS else out) = none) :
    (start st kwargs (Except.ok bin) out errS).err =
      some (PyFailure.bsLocal (Json.str
        ("Error parsing JSON output from daemon. Raw String = \"" ++
          (if out.isEmpty then errS else out) ++ "\""))) ∧
    (∃ a b, ("Error parsing JSON output from daemon. Raw String = \"" ++
        (if out.isEmpty then errS else out) ++ "\"") =
        a ++ (if out.isEmpty then errS else out) ++ b) ∧
    (out.isEmpty = true → (if out.isEmpty then errS else out) = errS) := by
  obtain ⟨st2, heq, _, _⟩ := start_ok_phase2 st kwargs bin out errS
  rw [heq, startPhase2_parse_fail st2 kwargs out errS hoc hp]
  refine ⟨rfl, ⟨_, _, rfl⟩, ?_⟩
  intro h
  simp [h]

/-- C6 (witness): stdout empty and stderr "not json": the raised payload is
the parse-error message containing "not json". -/
theorem start_parse_error_payload_witness :
    (start wSt [] (Except.ok wBin) "" "not json").err =
      some (PyFailure.bsLocal (Json.str
        ("Error parsing JSON output from daemon. Raw String = \"" ++ "not json" ++ "\""))) ∧
    ∃ a b, ("Error parsing JSON output from daemon. Raw String = \"" ++ "not json" ++ "\"")
      = a ++ ("not json" : String) ++ b := by
  obtain ⟨h1, h2, _⟩ := start_parse_error_payload wSt [] wBin "" "not json" rfl rfl
  exact ⟨h1, h2⟩

/-- C7 (confirmed): when a process is spawned and the chosen output decodes,
a handshake whose state is not "connected" makes start raise the
BrowserStackLocal error carrying the nested message text, and a handshake
whose state is "connected" with a pid field makes start succeed recording
exactly that pid. -/
theorem start_handshake_outcome (st : State) (kwargs : List (String × PyVal))
    (bin out errS : String) (data : Json)
    (hoc : onlyCommandTruthy kwargs = false)
    (hp : jsonParse (if out.isEmpty then errS else out) = some data) :
    (∀ s m mm : Json, jsonGet data "state" = Except.ok s → isConnectedStr s = false →
      jsonGet data "message" = Except.ok m → jsonGet m "message" = Except.ok mm →
      (start st kwargs (Except.ok bin) out errS).err = some (PyFailure.bsLocal mm)) ∧
    (∀ p : Json, jsonGet data "state" = Except.ok (Json.str "connected") →
      jsonGet data "pid" = Except.ok p →
      (start st kwargs (Except.ok bin) out errS).err = none ∧
      (start st kwargs (Except.ok bin) out errS).state.pid = some p) := by
  obtain ⟨st2, heq, hpid, _⟩ := start_ok_phase2 st kwargs bin out errS
  constructor
  · intro s m mm hs hcs hm hmm
    rw [heq, startPhase2_reject st2 kwargs out errS data s m mm hoc hp hs hcs hm hmm]
  · intro p hs hpd
    rw [heq, startPhase2_connected st2 kwargs out errS data p hoc hp hs hpd]
    exact ⟨rfl, rfl⟩

/-- C7 (witness): the rejecting handshake raises with payload "bad key";
the connected handshake succeeds and records pid 4321. -/
theorem start_handshake_outcome_witness :
    (start wSt [] (Except.ok wBin) errOut "").err =
      some (PyFailure.bsLocal (Json.str "bad key")) ∧
    (start wSt [] (Except.ok wBin) okOut "").err = none ∧
    (start wSt [] (Except.ok wBin) okOut "").state.pid = some (Json.num 4321) := by
  refine ⟨?_, ?_, ?_⟩
  · exact (start_handshake_outcome wSt [] wBin errOut ""
      (Json.obj [("state", Json.str "error"),
                 ("message", Json.obj [("message", Json.str "bad key")])])
      rfl rfl).1 (Json.str "error") (Json.obj [("message", Json.str "bad key")])
      (Json.str "bad key") rfl rfl rfl rfl
  · exact ((start_handshake_outcome wSt [] wBin okOut ""
      (Json.obj [("state", Json.str "connected"), ("pid", Json.num 4321)])
      rfl rfl).2 (Json.num 4321) rfl rfl).1
  · exact ((start_handshake_outcome wSt [] wBin okOut ""
      (Json.obj [("state", Json.str "connected"), ("pid", Json.num 4321)])
      rfl rfl).2 (Json.num 4321) rfl rfl).2

/-- C8 (confirmed): stop never raises — for every singleton state, version
and spawn/wait outcome, no exception escapes, and a spawn/wait failure is
logged at error severity. -/
theorem stop_never_raises (st : State) (ver : String) (sw : Except String Unit) :
    (stop st ver sw).raised = none ∧
    ∀ e, sw = Except.error e →
      (stop st ver sw).logged = ["Error stopping BrowserStack Local: " ++ e] := by
  cases sw with
  | ok u => exact ⟨rfl, fun e h => Except.noConfusion h⟩
  | error e0 =>
    refine ⟨rfl, ?_⟩
    intro e h
    injection h with h2
    rw [h2]
    rfl

/-- C8 (witness): a concrete failing spawn is swallowed and logged. -/
theorem stop_never_raises_witness :
    (stop wSt5 "1.0.0" (Except.error "spawn failed")).raised = none ∧
    (stop wSt5 "1.0.0" (Except.error "spawn failed")).logged =
      ["Error stopping BrowserStack Local: " ++ "spawn failed"] :=
  ⟨(stop_never_raises wSt5 "1.0.0" (Except.error "spawn failed")).1,
   (stop_never_raises wSt5 "1.0.0" (Except.error "spawn failed")).2 "spawn failed" rfl⟩

/-- C9 (confirmed): is_running is true exactly when a process identifier is
recorded and the host reports that identifier as alive; it is false (and
total, hence cannot raise) whenever no identifier is recorded, in
particular on every freshly constructed singleton. -/
theorem is_running_iff (st : State) (pid_exists : Json → Bool) :
    (is_running st pid_exists = true ↔ ∃ p, st.pid = some p ∧ pid_exists p = true) ∧
    (st.pid = none → is_running st pid_exists = false) ∧
    (∀ env key bp cwd kwargs,
      is_running (initState env key bp cwd kwargs) pid_exists = false) := by
  refine ⟨?_, ?_, ?_⟩
  · cases hp : st.pid with
    | none => simp [is_running, hp]
    | some p => simp [is_running, hp]
  · intro h
    simp [is_running, h]
  · intro env key bp cwd kwargs
    rfl

/-- C9 (witness): true at a state holding pid 4321 under a host where every
pid exists, false at the freshly constructed singleton. -/
theorem is_running_iff_witness :
    is_running wStPid (fun _ => true) = true ∧
    is_running wSt (fun _ => true) = false :=
  ⟨(is_running_iff wStPid (fun _ => true)).1.mpr ⟨Json.num 4321, rfl, rfl⟩,
   (is_running_iff wSt (fun _ => true)).2.1 rfl⟩

/-- C10 (confirmed): a call passing onlyCommand=True leaves the key stored
in the option mapping afterwards with its value intact, and every start or
stop command generated from the post-call state contains the flag token
-onlyCommand. -/
theorem start_keeps_onlyCommand_flag (st : State) (kwargs : List (String × PyVal))
    (res : Except String String) (out errS ver : String)
    (hnd : (kwargs.map Prod.fst).Nodup)
    (hoc : dictGet kwargs "onlyCommand" = some (PyVal.pbool true)) :
    dictGet (start st kwargs res out errS).state.options "onlyCommand" =
      some (PyVal.pbool true) ∧
    PyVal.pstr "-onlyCommand" ∈ generate_cmd ver (start st kwargs res out errS).state ∧
    PyVal.pstr "-onlyCommand" ∈ generate_stop_cmd ver (start st kwargs res out errS).state := by
  have hmerge : dictGet (mergeKwargs st.options kwargs) "onlyCommand" =
      some (PyVal.pbool true) :=
    dictGet_mergeKwargs kwargs "onlyCommand" (PyVal.pbool true) hnd hoc st.options
  have hget : dictGet (start st kwargs res out errS).state.options "onlyCommand" =
      some (PyVal.pbool true) := by
    rw [start_options_get st kwargs res out errS "onlyCommand"
      (by decide) (by decide) (by decide) (by decide)]
    exact hmerge
  have hmem : PyVal.pstr "-onlyCommand" ∈ xstr (some "onlyCommand") (PyVal.pbool true) := by
    decide
  exact ⟨hget,
    mem_generate_cmd ver _ "onlyCommand" (PyVal.pbool true) _ hget (by decide) hmem,
    mem_generate_stop_cmd ver _ "onlyCommand" (PyVal.pbool true) _ hget (by decide) hmem⟩

/-- C10 (witness): after start(onlyCommand=True) from the fresh singleton,
the key stays stored and both generated commands carry -onlyCommand. -/
theorem start_keeps_onlyCommand_flag_witness :
    dictGet (start wSt [("onlyCommand", PyVal.pbool true)]
        (Except.ok wBin) "" "").state.options "onlyCommand" = some (PyVal.pbool true) ∧
    PyVal.pstr "-onlyCommand" ∈
      generate_cmd "1.0.0" (start wSt [("onlyCommand", PyVal.pbool true)]
        (Except.ok wBin) "" "").state ∧
    PyVal.pstr "-onlyCommand" ∈
      generate_stop_cmd "1.0.0" (start wSt [("onlyCommand", PyVal.pbool true)]
        (Except.ok wBin) "" "").state :=
  start_keeps_onlyCommand_flag wSt [("onlyCommand", PyVal.pbool true)]
    (Except.ok wBin) "" "" "1.0.0" (by decide) rfl
